import Mathlib

/-!
Shallow embedding of the Humber flood-defence analysis repository
(`Humber_flood_embankments_analysis.py` and
`Interactive_Humber_flood_embankment_data.py`).

Dataset columns are modelled as Lean lists: a numeric column is a
`List ℚ`, a categorical column is a `List κ`, and a pair of columns read
off the same rows is a `List (κ × ℚ)`.  Machine floats are modelled as
exact rationals, except that the result of a scalar division is given an
explicit IEEE-style carrier (`PVal`) so that division by zero is modelled
as silently producing an infinity or NaN, exactly as numpy/pandas scalars
behave in the script.
-/

namespace Humber

/-! ### Metrics: total length -/

/-- Embedding of the aggregate `df[Shape_Leng].sum() / 1000` (lines 77,
83, 146 of the static script): sum a numeric length column and convert
metres to kilometres by dividing by 1000. -/
def total_length (col : List ℚ) : ℚ := col.sum / 1000

/-! ### Metrics: ratio of two dataset lengths -/

/-- The value of a numpy/pandas scalar division: an ordinary (exact)
number, or one of the IEEE special values that a division by zero
silently produces. -/
inductive PVal where
  | num (q : ℚ)
  | inf
  | negInf
  | nan
deriving DecidableEq

/-- Embedding of `A[col].sum() / B[col].sum() * 100` (lines 87 and 150 of
the static script).  The script divides the raw column sums directly;
numpy float semantics on a zero denominator silently produce `inf`,
`-inf` or `nan` (for a zero numerator) rather than raising any error. -/
def ratioPct (a b : List ℚ) : PVal :=
  if b.sum = 0 then
    if a.sum = 0 then PVal.nan
    else if 0 < a.sum then PVal.inf
    else PVal.negInf
  else PVal.num (a.sum / b.sum * 100)

/-! ### Metrics: counts, unique values, grouped totals -/

/-- Embedding of `df[df[attr] == c].count()` (lines 103, 106, 128 of the
static script): the number of rows whose categorical attribute equals
`c`. -/
def countFilter [DecidableEq κ] (col : List κ) (c : κ) : ℕ :=
  (col.filter (fun x => x = c)).length

/-- Embedding of `df.attr.unique()` (lines 99, 119, 123, 156, 177, 181,
186, 210, 222 of the static script): the distinct values of a column.
pandas returns them in first-seen order; every use in the scripts either
sorts the result or treats it as a set, so the order of `dedup` is
adequate. -/
def uniqueVals [DecidableEq κ] (col : List κ) : List κ := col.dedup

/-- Embedding of lines 222-223 of the static script,
`area_numbers = list(areas.FloodArea_.unique())` followed by
`area_numbers.sort()`: the distinct basemap area identifiers in ascending
order. -/
def sortedAreaNumbers (col : List ℕ) : List ℕ :=
  List.insertionSort (fun a b => a ≤ b) (uniqueVals col)

/-- The sum of the numeric attribute over the rows of one group:
the inner aggregation of `df.groupby([g])[v].sum()`. -/
def groupSum [DecidableEq κ] (rows : List (κ × ℚ)) (k : κ) : ℚ :=
  ((rows.filter (fun p => p.1 = k)).map Prod.snd).sum

/-- Embedding of `df.groupby([g])[v].sum() / 1000` (lines 164, 169, 174
of the static script): partition the rows by the value of the categorical
column `g` (pandas emits the group keys sorted), sum the numeric column
`v` within each group, and divide the resulting series by 1000. -/
def grouped_total [LinearOrder κ] (rows : List (κ × ℚ)) : List (κ × ℚ) :=
  (List.insertionSort (fun a b => a ≤ b) (uniqueVals (rows.map Prod.fst))).map
    (fun k => (k, groupSum rows k / 1000))

/-! ### Map Composer: legend handles -/

/-- A matplotlib rectangle patch as built by `generate_handles`; only the
styling the function sets is modelled.  `facecolor` is an `Option`
because Python list indexing can fail. -/
structure Handle where
  facecolor : Option String
  edgecolor : String
  alpha : ℚ
deriving DecidableEq

/-- Embedding of `generate_handles(labels, colors, edge, alpha)` (lines
20-25 of the static script): with `lc = len(colors)`, the function builds
one rectangle per label, the i-th with
`facecolor=colors[i % lc], edgecolor=edge, alpha=alpha`.  The Python
defaults are edge `k` and alpha 1; callers pass them explicitly here. -/
def generate_handles (labels : List String) (colors : List String)
    (edge : String) (alpha : ℚ) : List Handle :=
  (List.range labels.length).map
    (fun i => ⟨colors[i % colors.length]?, edge, alpha⟩)

/-! ### Map Composer: basemap colouring -/

/-- The 36 named colours of `areas_colors` (lines 214-219 of the static
script; the comment above them says 35, the list in fact holds 36). -/
def areas_colors : List String :=
  ["sandybrown", "bisque", "tan", "moccasin", "floralwhite", "gold", "darkkhaki",
   "lightgoldenrodyellow", "olivedrab", "chartreuse", "palegreen", "mediumspringgreen",
   "lightseagreen", "paleturquoise", "darkturquoise", "deepskyblue", "mediumpurple",
   "darkorchid", "plum", "m", "palevioletred", "lightgray", "lightcoral", "mistyrose",
   "peachpuff", "navajowhite", "orange", "lemonchiffon", "yellowgreen", "c", "skyblue",
   "violet", "fuchsia", "indianred", "salmon", "y"]

/-- Iteration of the basemap colouring loop (lines 227-234 of the static
script): `for ii, name in enumerate(area_numbers): ... areas_colors[ii]`.
Plain Python indexing is used — no modulo — so an index past the end of
the palette raises `IndexError`, modelled by `none`. -/
def assignColorsAux (palette : List String) : ℕ → List ℕ → Option (List (ℕ × String))
  | _, [] => some []
  | i, name :: rest =>
    match palette[i]? with
    | none => none
    | some c => (assignColorsAux palette (i + 1) rest).map (fun m => (name, c) :: m)

/-- The identifier-to-colour assignment computed by the basemap colouring
loop over the (sorted, distinct) identifiers `ids`. -/
def assignColors (palette : List String) (ids : List ℕ) : Option (List (ℕ × String)) :=
  assignColorsAux palette 0 ids

/-! ### Map Composer: scale bar geometry (lines 29-40 of the static script) -/

/-- The displayed extent, as returned by `ax.get_extent()`:
`x0, x1, y0, y1`. -/
structure Extent where
  x0 : ℚ
  x1 : ℚ
  y0 : ℚ
  y1 : ℚ
deriving DecidableEq

/-- An `ax.plot([..],[..], color=.., linewidth=..)` call. -/
structure PlotCmd where
  xs : List ℚ
  ys : List ℚ
  color : String
  linewidth : ℚ
deriving DecidableEq

/-- An `ax.text(x, y, s)` call. -/
structure TextCmd where
  x : ℚ
  y : ℚ
  label : String
deriving DecidableEq

/-- Embedding of `sbx = x0 + (x1 - x0) * location[0]` (line 31). -/
def scaleBarAnchorX (e : Extent) (loc : ℚ × ℚ) : ℚ := e.x0 + (e.x1 - e.x0) * loc.1

/-- Embedding of `sby = y0 + (y1 - y0) * location[1]` (line 32). -/
def scaleBarAnchorY (e : Extent) (loc : ℚ × ℚ) : ℚ := e.y0 + (e.y1 - e.y0) * loc.2

/-- The three `ax.plot` calls of the scale bar (lines 34-36), in source
order: the full 20000-unit black underlay, the solid black left-of-anchor
10000-unit half, and the white 10000-unit half over the underlay. -/
def scaleBarPlots (e : Extent) (loc : ℚ × ℚ) : List PlotCmd :=
  let sbx := scaleBarAnchorX e loc
  let sby := scaleBarAnchorY e loc
  [⟨[sbx, sbx - 20000], [sby, sby], "k", 9⟩,
   ⟨[sbx, sbx - 10000], [sby, sby], "k", 6⟩,
   ⟨[sbx - 10000, sbx - 20000], [sby, sby], "w", 6⟩]

/-- The three `ax.text` calls of the scale bar (lines 38-40), in source
order. -/
def scaleBarTexts (e : Extent) (loc : ℚ × ℚ) : List TextCmd :=
  let sbx := scaleBarAnchorX e loc
  let sby := scaleBarAnchorY e loc
  [⟨sbx, sby - 4500, "20 km"⟩,
   ⟨sbx - 12500, sby - 4500, "10 km"⟩,
   ⟨sbx - 24500, sby - 4500, "0 km"⟩]

/-! ### The body of `scale_bar` as an event trace

Due to its indentation, the whole static pipeline (lines 30-319) is the
body of `def scale_bar(ax, location=(0.92, 0.95))`, and line 314 calls
`scale_bar(ax)` again, before the `myFig.savefig(...)` of line 319.  The
body is modelled as the ordered list of its observable actions. -/

/-- One observable action performed by the body of `scale_bar`. -/
inductive Event where
  | plot (p : PlotCmd)
  | text (t : TextCmd)
  | readFile (path : String)
  | echo
  | addFeature
  | plotPoints
  | setExtent (x0 x1 y0 y1 : ℚ)
  | legend
  | savefig (path : String) (bbox : String) (dpi : ℕ)
deriving DecidableEq

/-- The parts of the loaded shapefiles on which the control flow and the
recorded events of the body depend: the `FloodArea_` column of the
basemap (the colouring loop runs once per distinct identifier) and the
`total_bounds` of the basemap (line 200), which determine the extent set
on line 205. -/
structure Datasets where
  floodAreaIds : List ℕ
  xmin : ℚ
  ymin : ℚ
  xmax : ℚ
  ymax : ℚ

/-- The extent set by
`ax.set_extent([xmin - 10000, xmax + 10000, ymin - 10000, ymax + 10000])`
(line 205); this is what `ax.get_extent()` returns inside the recursive
`scale_bar(ax)` call of line 314. -/
def innerExtent (d : Datasets) : Extent :=
  ⟨d.xmin - 10000, d.xmax + 10000, d.ymin - 10000, d.ymax + 10000⟩

/-- The ordered observable actions of the body of `scale_bar` from line 30
up to (but excluding) the recursive `scale_bar(ax)` call of line 314.
`echo` stands for a `print(...)` whose text is data-dependent (lines 100,
120, 124, 142, 157, 178, 182, 187, 211); pure expression statements such
as `df.head(5)` produce no action. -/
def scaleBarBodyEvents (d : Datasets) (e : Extent) (loc : ℚ × ℚ) : List Event :=
  (scaleBarPlots e loc).map Event.plot ++
  (scaleBarTexts e loc).map Event.text ++
  [Event.readFile "HSCR_Flood_Areas/HSCR_FloodAreas_2080406.shp",
   Event.readFile "Flood_embankment_network/Embankment_alignment_Humber_primary.shp",
   Event.readFile "LIDAR_derived_data/Embankment_low_sections_defects.shp",
   Event.readFile "LIDAR_derived_data/Embankment_steep_slope_anomalies.shp",
   Event.readFile "LIDAR_derived_data/Palaeochannel_anomalies_intersect_embank.shp",
   Event.readFile "Geophysical_survey_data_material_composition/Geophysical_survey_embankment_materials.shp",
   Event.echo, Event.echo, Event.echo, Event.echo, Event.echo,
   Event.echo, Event.echo, Event.echo,
   Event.addFeature,
   Event.setExtent (d.xmin - 10000) (d.xmax + 10000) (d.ymin - 10000) (d.ymax + 10000),
   Event.echo] ++
  (sortedAreaNumbers d.floodAreaIds).map (fun _ => Event.addFeature) ++
  [Event.addFeature, Event.addFeature, Event.addFeature, Event.addFeature,
   Event.plotPoints, Event.legend]

/-- Fuel-bounded big-step result of `scale_bar(ax)`: `some trace` when the
call returns within the given recursion depth, `none` when the depth is
exhausted.  The recursive call of line 314 passes the same axes (whose
extent is now `innerExtent d`) and the default location
`(0.92, 0.95)`; only after it returns would line 319 run
`myFig.savefig(Humber_flood_embankment_data.png, bbox_inches=tight, dpi=800)`. -/
def scaleBarComplete (d : Datasets) : Extent → ℚ × ℚ → ℕ → Option (List Event)
  | _, _, 0 => none
  | e, loc, fuel + 1 =>
    (scaleBarComplete d (innerExtent d) (92/100, 95/100) fuel).map
      (fun t => scaleBarBodyEvents d e loc ++ t ++
        [Event.savefig "Humber_flood_embankment_data.png" "tight" 800])

/-- The actions `scale_bar(ax)` has performed after running with the given
recursion depth: the partial trace when the recursion is still descending,
the complete trace when the inner call has returned. -/
def scaleBarTrace (d : Datasets) : Extent → ℚ × ℚ → ℕ → List Event
  | _, _, 0 => []
  | e, loc, fuel + 1 =>
    match scaleBarComplete d (innerExtent d) (92/100, 95/100) fuel with
    | some t => scaleBarBodyEvents d e loc ++ t ++
        [Event.savefig "Humber_flood_embankment_data.png" "tight" 800]
    | none => scaleBarBodyEvents d e loc ++ scaleBarTrace d (innerExtent d) (92/100, 95/100) fuel

/-! ### Helper lemmas -/

lemma sum_map_add {M : Type} [AddCommMonoid M] (l : List κ) (f g : κ → M) :
    (l.map fun a => f a + g a).sum = (l.map f).sum + (l.map g).sum := by
  induction l with
  | nil => simp
  | cons x xs ih =>
    simp only [List.map_cons, List.sum_cons, ih]
    exact add_add_add_comm _ _ _ _

lemma sum_map_ite_of_not_mem {M : Type} [AddCommMonoid M] [DecidableEq κ]
    {keys : List κ} {a : κ} (v : M) (ha : a ∉ keys) :
    (keys.map fun k => if a = k then v else 0).sum = 0 := by
  induction keys with
  | nil => simp
  | cons q ks ih =>
    have hq : a ≠ q := fun h => ha (h ▸ List.mem_cons_self q ks)
    have hks : a ∉ ks := fun h => ha (List.mem_cons_of_mem q h)
    simp [hq, ih hks]

lemma sum_map_ite_eq {M : Type} [AddCommMonoid M] [DecidableEq κ]
    {keys : List κ} {a : κ} (v : M) (hnd : keys.Nodup) (ha : a ∈ keys) :
    (keys.map fun k => if a = k then v else 0).sum = v := by
  induction keys with
  | nil => cases ha
  | cons q ks ih =>
    rcases List.mem_cons.mp ha with h | h
    · subst h
      have : a ∉ ks := (List.nodup_cons.mp hnd).1
      simp [sum_map_ite_of_not_mem v this]
    · have hq : a ≠ q := by
        rintro rfl
        exact (List.nodup_cons.mp hnd).1 h
      simp [hq, ih (List.nodup_cons.mp hnd).2 h]

lemma groupSum_cons [DecidableEq κ] (p : κ × ℚ) (rest : List (κ × ℚ)) (k : κ) :
    groupSum (p :: rest) k = (if p.1 = k then p.2 else 0) + groupSum rest k := by
  by_cases h : p.1 = k <;> simp [groupSum, List.filter_cons, h]

lemma sum_partition [DecidableEq κ] :
    ∀ (rows : List (κ × ℚ)) (keys : List κ), keys.Nodup →
      (∀ p ∈ rows, p.1 ∈ keys) →
      (keys.map fun k => groupSum rows k).sum = (rows.map Prod.snd).sum := by
  intro rows
  induction rows with
  | nil => intro keys _ _; simp [groupSum]
  | cons p rest ih =>
    intro keys hnd hcov
    have hmem : p.1 ∈ keys := hcov p (List.mem_cons_self p rest)
    simp only [groupSum_cons]
    rw [sum_map_add keys (fun k => if p.1 = k then p.2 else 0) (fun k => groupSum rest k),
      sum_map_ite_eq p.2 hnd hmem,
      ih keys hnd (fun q hq => hcov q (List.mem_cons_of_mem p hq))]
    simp

lemma countFilter_cons [DecidableEq κ] (x : κ) (xs : List κ) (k : κ) :
    countFilter (x :: xs) k = (if x = k then 1 else 0) + countFilter xs k := by
  by_cases h : x = k <;> simp [countFilter, List.filter_cons, h, Nat.add_comm]

lemma length_partition [DecidableEq κ] :
    ∀ (col : List κ) (keys : List κ), keys.Nodup →
      (∀ x ∈ col, x ∈ keys) →
      (keys.map fun k => countFilter col k).sum = col.length := by
  intro col
  induction col with
  | nil => intro keys _ _; simp [countFilter]
  | cons x xs ih =>
    intro keys hnd hcov
    have hmem : x ∈ keys := hcov x (List.mem_cons_self x xs)
    simp only [countFilter_cons]
    rw [sum_map_add keys (fun k => if x = k then 1 else 0) (fun k => countFilter xs k),
      sum_map_ite_eq 1 hnd hmem,
      ih keys hnd (fun q hq => hcov q (List.mem_cons_of_mem x hq))]
    simp [Nat.add_comm]

lemma sum_map_div (l : List κ) (f : κ → ℚ) (c : ℚ) :
    (l.map fun a => f a / c).sum = (l.map f).sum / c := by
  induction l with
  | nil => simp
  | cons x xs ih => simp [ih, add_div]

lemma sum_eq_zero_iff_of_nonneg :
    ∀ (l : List ℚ), (∀ v ∈ l, 0 ≤ v) → (l.sum = 0 ↔ ∀ v ∈ l, v = 0) := by
  intro l
  induction l with
  | nil => intro _; simp
  | cons x xs ih =>
    intro h
    have hx : 0 ≤ x := h x (List.mem_cons_self x xs)
    have hxs : ∀ v ∈ xs, 0 ≤ v := fun v hv => h v (List.mem_cons_of_mem x hv)
    have hs : 0 ≤ xs.sum := List.sum_nonneg hxs
    rw [List.sum_cons, List.forall_mem_cons,
      add_eq_zero_iff_of_nonneg hx hs, ih hxs]

lemma assignColorsAux_eq_some (palette : List String) :
    ∀ (ids : List ℕ) (i : ℕ), i + ids.length ≤ palette.length →
      assignColorsAux palette i ids = some (ids.zip (palette.drop i)) := by
  intro ids
  induction ids with
  | nil => intro i _; simp [assignColorsAux]
  | cons n rest ih =>
    intro i h
    have hi : i < palette.length := by
      simp only [List.length_cons] at h
      omega
    have hrest := ih (i + 1) (by simp only [List.length_cons] at h; omega)
    simp only [assignColorsAux, List.getElem?_eq_getElem hi, hrest, Option.map_some']
    rw [List.drop_eq_getElem_cons hi, List.zip_cons_cons]

lemma assignColorsAux_eq_none (palette : List String) :
    ∀ (ids : List ℕ) (i : ℕ), ids ≠ [] → palette.length < i + ids.length →
      assignColorsAux palette i ids = none := by
  intro ids
  induction ids with
  | nil => intro i h _; exact absurd rfl h
  | cons n rest ih =>
    intro i _ h
    by_cases hi : i < palette.length
    · have hne : rest ≠ [] := by
        rcases rest with _ | ⟨m, ms⟩
        · simp only [List.length_cons, List.length_nil] at h
          omega
        · exact List.cons_ne_nil m ms
      have := ih (i + 1) hne (by simp only [List.length_cons] at h ⊢; omega)
      simp only [assignColorsAux, List.getElem?_eq_getElem hi, this, Option.map_none']
    · have : palette[i]? = none := List.getElem?_eq_none (by omega)
      simp [assignColorsAux, this]

lemma scaleBarComplete_eq_none (d : Datasets) :
    ∀ (fuel : ℕ) (e : Extent) (loc : ℚ × ℚ), scaleBarComplete d e loc fuel = none := by
  intro fuel
  induction fuel with
  | zero => intro e loc; rfl
  | succ n ih =>
    intro e loc
    simp [scaleBarComplete, ih (innerExtent d) (92/100, 95/100)]

lemma savefig_not_mem_body (d : Datasets) (e : Extent) (loc : ℚ × ℚ)
    (p b : String) (dpi : ℕ) :
    Event.savefig p b dpi ∉ scaleBarBodyEvents d e loc := by
  intro hmem
  simp [scaleBarBodyEvents, List.mem_append, List.mem_map, List.mem_cons] at hmem

/-! ### Claim theorems -/

/-- C1 (amended): the ratio computation of lines 87 and 150 raises no
error at all: when the total length of the denominator dataset is zero it
silently yields an IEEE special value (NaN or an infinity, depending on
the numerator), and otherwise it returns exactly
`total_length(A) / total_length(B) * 100`. -/
theorem ratioPct_spec (a b : List ℚ) :
    (total_length b ≠ 0 →
      ratioPct a b = PVal.num (total_length a / total_length b * 100)) ∧
    (total_length b = 0 →
      ratioPct a b = PVal.nan ∨ ratioPct a b = PVal.inf ∨ ratioPct a b = PVal.negInf) := by
  have hiff : total_length b = 0 ↔ b.sum = 0 := by
    unfold total_length
    rw [div_eq_zero_iff]
    norm_num
  constructor
  · intro h
    have hb : b.sum ≠ 0 := fun h0 => h (hiff.mpr h0)
    have hval : total_length a / total_length b = a.sum / b.sum := by
      unfold total_length
      rw [div_div_div_comm]
      norm_num
    rw [hval]
    simp [ratioPct, hb]
  · intro h
    have hb : b.sum = 0 := hiff.mp h
    by_cases ha : a.sum = 0
    · simp [ratioPct, hb, ha]
    · by_cases hpos : 0 < a.sum
      · simp [ratioPct, hb, ha, hpos]
      · simp [ratioPct, hb, ha, hpos]

/-- Witness for C1: on A = [1], B = [2] the denominator is non-zero and
the ratio is the exact percentage. -/
theorem ratioPct_spec_witness :
    ratioPct [1] [2] = PVal.num (total_length [1] / total_length [2] * 100) :=
  (ratioPct_spec [1] [2]).1 (by norm_num [total_length])

/-- Counterexample for C1 as stated: on A = [1], B = [0] the denominator
total length of the denominator dataset is zero, yet no error named in C1 exists in
the code — the division silently produces +infinity. -/
theorem ratioPct_counterexample :
    total_length [0] = 0 ∧ ratioPct [1] [0] = PVal.inf := by
  constructor
  · norm_num [total_length]
  · norm_num [ratioPct]

/-- C3 (amended): the basemap colouring loop pairs the i-th sorted
identifier with the palette colour at plain index `i` — no modulo — and
when the identifiers outnumber the palette entries the assignment fails
with an IndexError (`none`) instead of cyclically reusing colours.
(Cyclic reuse by `i % len(colors)` exists only in `generate_handles`.) -/
theorem assignColors_spec (palette : List String) (ids : List ℕ) :
    (ids.length ≤ palette.length → assignColors palette ids = some (ids.zip palette)) ∧
    (palette.length < ids.length → assignColors palette ids = none) := by
  constructor
  · intro h
    have hs := assignColorsAux_eq_some palette ids 0 (by omega)
    simpa using hs
  · intro h
    have hne : ids ≠ [] := by
      rcases ids with _ | ⟨n, ns⟩
      · simp only [List.length_nil] at h
        omega
      · exact List.cons_ne_nil n ns
    exact assignColorsAux_eq_none palette ids 0 hne (by omega)

/-- Witness for C3 (amended): two identifiers, two colours — positional
pairing succeeds. -/
theorem assignColors_spec_witness :
    assignColors ["r", "g"] [5, 7] = some ([5, 7].zip ["r", "g"]) :=
  (assignColors_spec ["r", "g"] [5, 7]).1 (by decide)

/-- Counterexample for C3 as stated: with the 36 identifiers 0..35 and a
35-colour palette (the first 35 script colours), the colouring loop fails
(`none`) instead of giving the 36th identifier the colour at index 0. -/
theorem basemap_colors_counterexample :
    assignColors (areas_colors.take 35) (List.range 36) = none ∧
    (areas_colors.take 35).length = 35 ∧ (List.range 36).length = 36 :=
  ⟨rfl, rfl, rfl⟩

/-- C10: `generate_handles` returns one rectangle handle per label; the
face colour of the i-th handle is `colors[i % len(colors)]` — so for a
non-empty colour list the lookup never fails and colours are reused
cyclically — and the given edge colour and alpha are applied uniformly. -/
theorem generate_handles_spec (labels colors : List String) (edge : String)
    (alpha : ℚ) (h : colors ≠ []) :
    (generate_handles labels colors edge alpha).length = labels.length ∧
    ∀ i, i < labels.length →
      ∃ hm : i % colors.length < colors.length,
        (generate_handles labels colors edge alpha)[i]? =
          some ⟨some colors[i % colors.length], edge, alpha⟩ := by
  constructor
  · simp [generate_handles]
  · intro i hi
    have hm : i % colors.length < colors.length :=
      Nat.mod_lt i (List.length_pos.mpr h)
    refine ⟨hm, ?_⟩
    simp [generate_handles, List.getElem?_range hi, List.getElem?_eq_getElem hm]

/-- Witness for C10: two labels, one colour — both handles exist and the
colour list wraps. -/
theorem generate_handles_witness :
    (generate_handles ["a", "b"] ["r"] "k" 1).length = ["a", "b"].length :=
  (generate_handles_spec ["a", "b"] ["r"] "k" 1 (by decide)).1

/-- C4: `scale_bar` never terminates: for every loaded-data contents,
displayed extent, location argument and recursion depth, the fuel-bounded
evaluation of the call exhausts its fuel without returning — the
unconditional self-call of line 314 has no base case. -/
theorem scale_bar_diverges (d : Datasets) (e : Extent) (loc : ℚ × ℚ) (fuel : ℕ) :
    scaleBarComplete d e loc fuel = none :=
  scaleBarComplete_eq_none d fuel e loc

/-- C2 (code evaluation): the static pipeline never writes its one output
image — the `savefig` of line 319 sits after the unconditional recursive
`scale_bar(ax)` call of line 314, so no finite execution trace of
`scale_bar` contains any savefig event (and the module top level never
invokes `scale_bar` in the first place). -/
theorem savefig_unreachable (d : Datasets) (e : Extent) (loc : ℚ × ℚ) (fuel : ℕ)
    (p b : String) (dpi : ℕ) :
    Event.savefig p b dpi ∉ scaleBarTrace d e loc fuel := by
  induction fuel generalizing e loc with
  | zero => simp [scaleBarTrace]
  | succ n ih =>
    have hc := scaleBarComplete_eq_none d n (innerExtent d) (92/100, 95/100)
    simp only [scaleBarTrace, hc]
    intro hmem
    rcases List.mem_append.mp hmem with hbody | htail
    · exact savefig_not_mem_body d e loc p b dpi hbody
    · exact ih (innerExtent d) (92/100, 95/100) htail

/-- C5: the grouped total has no repeated category, its categories are
exactly those present in the data, and the per-group totals sum to the
total length of the whole dataset. -/
theorem grouped_total_partitions {κ : Type} [LinearOrder κ] (rows : List (κ × ℚ)) :
    ((grouped_total rows).map Prod.fst).Nodup ∧
    (∀ k, k ∈ (grouped_total rows).map Prod.fst ↔ ∃ v, (k, v) ∈ rows) ∧
    ((grouped_total rows).map Prod.snd).sum = total_length (rows.map Prod.snd) := by
  have hkeys : (grouped_total rows).map Prod.fst
      = List.insertionSort (fun a b => a ≤ b) (uniqueVals (rows.map Prod.fst)) := by
    simp [grouped_total, List.map_map, Function.comp_def]
  have hperm : List.Perm
      (List.insertionSort (fun a b => a ≤ b) (uniqueVals (rows.map Prod.fst)))
      (uniqueVals (rows.map Prod.fst)) := List.perm_insertionSort _ _
  refine ⟨?_, ?_, ?_⟩
  · rw [hkeys]
    exact hperm.nodup_iff.mpr (List.nodup_dedup _)
  · intro k
    rw [hkeys]
    constructor
    · intro hk
      have hk' : k ∈ rows.map Prod.fst := List.mem_dedup.mp (hperm.mem_iff.mp hk)
      rcases List.mem_map.mp hk' with ⟨p, hp, hpk⟩
      refine ⟨p.2, ?_⟩
      rw [← hpk, Prod.mk.eta]
      exact hp
    · rintro ⟨v, hv⟩
      exact hperm.mem_iff.mpr (List.mem_dedup.mpr (List.mem_map.mpr ⟨(k, v), hv, rfl⟩))
  · have h1 : (grouped_total rows).map Prod.snd
        = (List.insertionSort (fun a b => a ≤ b) (uniqueVals (rows.map Prod.fst))).map
            (fun k => groupSum rows k / 1000) := by
      simp [grouped_total, List.map_map, Function.comp_def]
    rw [h1, sum_map_div, (hperm.map (fun k => groupSum rows k)).sum_eq,
      sum_partition rows (uniqueVals (rows.map Prod.fst)) (List.nodup_dedup _)
        (fun p hp => List.mem_dedup.mpr (List.mem_map.mpr ⟨p, hp, rfl⟩))]
    rfl

/-- C6: the total length of a dataset whose length column is non-negative
is non-negative, and it is zero exactly when the dataset is empty or its
length column is entirely zero. -/
theorem total_length_spec (col : List ℚ) (h : ∀ v ∈ col, 0 ≤ v) :
    0 ≤ total_length col ∧
    (total_length col = 0 ↔ col = [] ∨ ∀ v ∈ col, v = 0) := by
  have hsum : 0 ≤ col.sum := List.sum_nonneg h
  constructor
  · exact div_nonneg hsum (by norm_num)
  · have h0 : total_length col = 0 ↔ col.sum = 0 := by
      unfold total_length
      rw [div_eq_zero_iff]
      norm_num
    rw [h0, sum_eq_zero_iff_of_nonneg col h]
    constructor
    · exact Or.inr
    · rintro (rfl | hall)
      · simp
      · exact hall

/-- Witness for C6: a concrete dataset with positive lengths. -/
theorem total_length_witness : 0 ≤ total_length [2, 3] :=
  (total_length_spec [2, 3] (by intro v hv; fin_cases hv <;> norm_num)).1

/-- C7: basemap colour assignment is independent of row order — any two
identifier columns with the same underlying set of identifiers produce
the same sorted unique list and hence the identical identifier-to-colour
mapping. -/
theorem basemap_colors_deterministic (palette : List String) (r1 r2 : List ℕ)
    (h : ∀ x, x ∈ r1 ↔ x ∈ r2) :
    sortedAreaNumbers r1 = sortedAreaNumbers r2 ∧
    assignColors palette (sortedAreaNumbers r1)
      = assignColors palette (sortedAreaNumbers r2) := by
  have hperm : List.Perm (uniqueVals r1) (uniqueVals r2) :=
    (List.perm_ext_iff_of_nodup (List.nodup_dedup r1) (List.nodup_dedup r2)).mpr
      (fun a => List.mem_dedup.trans ((h a).trans List.mem_dedup.symm))
  have hchain : List.Perm (sortedAreaNumbers r1) (sortedAreaNumbers r2) :=
    ((List.perm_insertionSort _ _).trans hperm).trans (List.perm_insertionSort _ _).symm
  have heq : sortedAreaNumbers r1 = sortedAreaNumbers r2 :=
    List.eq_of_perm_of_sorted hchain
      (List.sorted_insertionSort _ _) (List.sorted_insertionSort _ _)
  exact ⟨heq, by rw [heq]⟩

/-- Witness for C7: two row orders of the identifier set 1, 2, 3. -/
theorem basemap_colors_deterministic_witness :
    sortedAreaNumbers [3, 1, 2] = sortedAreaNumbers [2, 2, 3, 1] :=
  (basemap_colors_deterministic [] [3, 1, 2] [2, 2, 3, 1]
    (by intro x; simp [List.mem_cons]; tauto)).1

/-- C8: the count of rows matching category c plus the counts of rows
matching every other category value present in the column sums to the
total row count. -/
theorem count_partition {κ : Type} [DecidableEq κ] (col : List κ) (c : κ) :
    countFilter col c +
      (((uniqueVals col).filter (fun k => k ≠ c)).map (countFilter col)).sum
      = col.length := by
  have hnd : ((uniqueVals col).filter (fun k => k ≠ c)).Nodup :=
    (List.nodup_dedup col).filter _
  have hndc : (c :: (uniqueVals col).filter (fun k => k ≠ c)).Nodup := by
    rw [List.nodup_cons]
    refine ⟨?_, hnd⟩
    intro hc
    have hcc := List.of_mem_filter hc
    simp at hcc
  have hcov : ∀ x ∈ col, x ∈ c :: (uniqueVals col).filter (fun k => k ≠ c) := by
    intro x hx
    by_cases hxc : x = c
    · exact hxc ▸ List.mem_cons_self _ _
    · exact List.mem_cons_of_mem _
        (List.mem_filter.mpr ⟨List.mem_dedup.mpr hx, by simpa using hxc⟩)
  have hall := length_partition col (c :: (uniqueVals col).filter (fun k => k ≠ c)) hndc hcov
  simpa using hall

/-- C9: with the default location, the scale bar is anchored 92% across
and 95% up the displayed extent; it consists of a 20000-native-unit
(20 km) bar made of two adjacent 10000-native-unit (10 km) halves — the
left-of-anchor solid black one and the white one over the black underlay —
all drawn horizontally at the anchor height, with the three labels
"0 km", "10 km", "20 km" along the bar. -/
theorem scale_bar_layout (e : Extent) :
    ∃ full solid blank : PlotCmd,
      scaleBarPlots e (92/100, 95/100) = [full, solid, blank] ∧
      scaleBarAnchorX e (92/100, 95/100) = e.x0 + (e.x1 - e.x0) * (92/100) ∧
      scaleBarAnchorY e (92/100, 95/100) = e.y0 + (e.y1 - e.y0) * (95/100) ∧
      full.ys = [scaleBarAnchorY e (92/100, 95/100), scaleBarAnchorY e (92/100, 95/100)] ∧
      solid.ys = [scaleBarAnchorY e (92/100, 95/100), scaleBarAnchorY e (92/100, 95/100)] ∧
      blank.ys = [scaleBarAnchorY e (92/100, 95/100), scaleBarAnchorY e (92/100, 95/100)] ∧
      solid.xs = [scaleBarAnchorX e (92/100, 95/100),
                  scaleBarAnchorX e (92/100, 95/100) - 10000] ∧
      blank.xs = [scaleBarAnchorX e (92/100, 95/100) - 10000,
                  scaleBarAnchorX e (92/100, 95/100) - 20000] ∧
      full.xs = [scaleBarAnchorX e (92/100, 95/100),
                 scaleBarAnchorX e (92/100, 95/100) - 20000] ∧
      solid.color = "k" ∧ blank.color = "w" ∧
      (scaleBarTexts e (92/100, 95/100)).map TextCmd.label = ["20 km", "10 km", "0 km"] :=
  ⟨_, _, _, rfl, rfl, rfl, rfl, rfl, rfl, rfl, rfl, rfl, rfl, rfl, rfl⟩

end Humber
